import Mathlib

/-!
Verification of the AlphaBot client-side orchestration layer.

This development gives a shallow embedding of the parts of the AlphaBot
repository that implement:

* the NDJSON streaming chat decoder (`chatWithAgentStream` in
  `src/frontend/src/lib/api.ts`),
* the streaming conversation reducer (`handleStreamingChat` in
  `src/frontend/src/components/ui/textarea.tsx`),
* the single-job polling tracker (`AsyncAIAnalysis` in `src/unnamed/part_012`),
* the batch polling coordinator (`BatchAnalysis.tsx`),
* the IndexedDB response cache (`IndexedDBCacheService` in `src/unnamed/part_007`),

and proves, or refutes, the specification claims about them.

Strings from the JavaScript source are modelled as `List Char`; time stamps
(`Date.now()`) are natural numbers of milliseconds.
-/

namespace AlphaBot

/-! ## NDJSON stream framing (`chatWithAgentStream` read loop, api.ts)

The source loop is:

  buffer += decoder.decode(value, \x7b stream: true \x7d);
  const lines = buffer.split('\n');
  buffer = lines.pop() || '';
  for (const line of lines) if (line.trim()) try onMessage(JSON.parse(line)) catch ...

`scanLines s` returns exactly (`lines` after the `pop`, popped trailing part):
the maximal newline-terminated prefix of `s` split into its lines, together
with the remaining partial line. -/

def scanLines : List Char → List (List Char) × List Char
  | [] => ([], [])
  | c :: cs =>
    let p := scanLines cs
    if c = '\n' then ([] :: p.1, p.2)
    else
      match p.1 with
      | [] => ([], c :: p.2)
      | l :: ls => ((c :: l) :: ls, p.2)

/-- Characters removed by JavaScript's `String.prototype.trim` that can occur
in a JSON-bearing line (the line itself can no longer contain `'\n'`). -/
def isJsSpace (c : Char) : Bool :=
  c = ' ' || c = '\t' || c = '\n' || c = '\r' || c = '\x0c' || c = '\x0b'

/-- Per-line dispatch of the read loop: a line that is whitespace-only
(`if (line.trim())` is falsy) is ignored, otherwise the line is parsed and a
parse failure is logged and skipped (the `try`/`catch` around `JSON.parse`). -/
def lineEvent {α : Type} (parse : List Char → Option α) (l : List Char) : Option α :=
  if l.all isJsSpace then none else parse l

/-- The read loop of `chatWithAgentStream`, with the carried partial-line
buffer made explicit.  Each chunk is appended to the buffer, complete lines
are dispatched, and the trailing partial line becomes the new buffer.
When the transport reports `done` the loop breaks and the buffer is dropped. -/
def runChunksAux {α : Type} (parse : List Char → Option α) :
    List Char → List (List Char) → List α
  | _, [] => []
  | buf, c :: cs =>
    let p := scanLines (buf ++ c)
    p.1.filterMap (lineEvent parse) ++ runChunksAux parse p.2 cs

/-- Events dispatched by the `chatWithAgentStream` read loop on a given
sequence of decoded chunks. -/
def runChunks {α : Type} (parse : List Char → Option α) (chunks : List (List Char)) :
    List α :=
  runChunksAux parse [] chunks

/-! ## A model of `JSON.parse`

The decoder parses each complete line with the JavaScript built-in
`JSON.parse`.  We model JSON values with numbers kept as their source text
(the claims never compute with numbers, and floating point is out of scope)
and give a recursive-descent parser; the fuel argument bounds the nesting
depth and is instantiated generously, so it never runs out on inputs whose
depth is bounded by their length. -/

inductive Json where
  | null : Json
  | bool (b : Bool) : Json
  | num (raw : List Char) : Json
  | str (s : List Char) : Json
  | arr (elems : List Json) : Json
  | obj (fields : List (List Char × Json)) : Json

/-- JSON (RFC 8259) insignificant whitespace. -/
def isJsonWs (c : Char) : Bool :=
  c = ' ' || c = '\t' || c = '\n' || c = '\r'

def skipWs (s : List Char) : List Char := s.dropWhile isJsonWs

def hexVal (c : Char) : Option Nat :=
  if '0' ≤ c ∧ c ≤ '9' then some (c.toNat - '0'.toNat)
  else if 'a' ≤ c ∧ c ≤ 'f' then some (c.toNat - 'a'.toNat + 10)
  else if 'A' ≤ c ∧ c ≤ 'F' then some (c.toNat - 'A'.toNat + 10)
  else none

/-- Body of a JSON string literal, after the opening quote. -/
def parseStr : List Char → Option (List Char × List Char)
  | [] => none
  | '"' :: r => some ([], r)
  | '\\' :: e :: r =>
    match e with
    | '"' => (parseStr r).map (fun p => ('"' :: p.1, p.2))
    | '\\' => (parseStr r).map (fun p => ('\\' :: p.1, p.2))
    | '/' => (parseStr r).map (fun p => ('/' :: p.1, p.2))
    | 'n' => (parseStr r).map (fun p => ('\n' :: p.1, p.2))
    | 't' => (parseStr r).map (fun p => ('\t' :: p.1, p.2))
    | 'r' => (parseStr r).map (fun p => ('\r' :: p.1, p.2))
    | 'b' => (parseStr r).map (fun p => ('\x08' :: p.1, p.2))
    | 'f' => (parseStr r).map (fun p => ('\x0c' :: p.1, p.2))
    | 'u' =>
      match r with
      | h1 :: h2 :: h3 :: h4 :: r' =>
        match hexVal h1, hexVal h2, hexVal h3, hexVal h4 with
        | some a, some b, some c, some d =>
          let n := ((a * 16 + b) * 16 + c) * 16 + d
          if h : n.isValidChar then
            (parseStr r').map (fun p => (Char.ofNatAux n h :: p.1, p.2))
          else none
        | _, _, _, _ => none
      | _ => none
    | _ => none
  | c :: r => (parseStr r).map (fun p => (c :: p.1, p.2))

def takeDigits (s : List Char) : List Char × List Char :=
  (s.takeWhile Char.isDigit, s.dropWhile Char.isDigit)

/-- A JSON number literal, returned as its raw text. -/
def parseNum (s : List Char) : Option (List Char × List Char) :=
  let (sign, s1) := match s with
    | '-' :: r => (['-'], r)
    | _ => (([] : List Char), s)
  let (intPart, s2) := takeDigits s1
  if intPart = [] then none
  else
    let (fracPart, s3) := match s2 with
      | '.' :: r =>
        let (d, r') := takeDigits r
        if d = [] then (([] : List Char), s2) else ('.' :: d, r')
      | _ => (([] : List Char), s2)
    let (expPart, s4) := match s3 with
      | e :: r =>
        if e = 'e' ∨ e = 'E' then
          let (es, r1) := match r with
            | '+' :: r' => (['+'], r')
            | '-' :: r' => (['-'], r')
            | _ => (([] : List Char), r)
          let (d, r2) := takeDigits r1
          if d = [] then (([] : List Char), s3) else (e :: (es ++ d), r2)
        else (([] : List Char), s3)
      | _ => (([] : List Char), s3)
    some (sign ++ intPart ++ fracPart ++ expPart, s4)

mutual

def parseVal : Nat → List Char → Option (Json × List Char)
  | 0, _ => none
  | fuel + 1, s =>
    match skipWs s with
    | 'n' :: 'u' :: 'l' :: 'l' :: r => some (.null, r)
    | 't' :: 'r' :: 'u' :: 'e' :: r => some (.bool true, r)
    | 'f' :: 'a' :: 'l' :: 's' :: 'e' :: r => some (.bool false, r)
    | '"' :: r => (parseStr r).map (fun p => (.str p.1, p.2))
    | '[' :: r => parseArrBody fuel r
    | '\x7b' :: r => parseObjBody fuel r
    | c :: r =>
      if c = '-' ∨ c.isDigit then
        (parseNum (c :: r)).map (fun p => (.num p.1, p.2))
      else none
    | [] => none

/-- Array elements after the opening bracket. -/
def parseArrBody : Nat → List Char → Option (Json × List Char)
  | 0, _ => none
  | fuel + 1, s =>
    match skipWs s with
    | ']' :: r => some (.arr [], r)
    | _ =>
      match parseVal fuel s with
      | none => none
      | some (v, r) =>
        match parseArrRest fuel r with
        | none => none
        | some (vs, r') => some (.arr (v :: vs), r')

def parseArrRest : Nat → List Char → Option (List Json × List Char)
  | 0, _ => none
  | fuel + 1, s =>
    match skipWs s with
    | ']' :: r => some ([], r)
    | ',' :: r =>
      match parseVal fuel r with
      | none => none
      | some (v, r1) =>
        match parseArrRest fuel r1 with
        | none => none
        | some (vs, r2) => some (v :: vs, r2)
    | _ => none

/-- Object members after the opening brace. -/
def parseObjBody : Nat → List Char → Option (Json × List Char)
  | 0, _ => none
  | fuel + 1, s =>
    match skipWs s with
    | '\x7d' :: r => some (.obj [], r)
    | _ =>
      match parseMember fuel s with
      | none => none
      | some (kv, r) =>
        match parseObjRest fuel r with
        | none => none
        | some (kvs, r') => some (.obj (kv :: kvs), r')

def parseMember : Nat → List Char → Option ((List Char × Json) × List Char)
  | 0, _ => none
  | fuel + 1, s =>
    match skipWs s with
    | '"' :: r =>
      match parseStr r with
      | none => none
      | some (k, r1) =>
        match skipWs r1 with
        | ':' :: r2 =>
          match parseVal fuel r2 with
          | none => none
          | some (v, r3) => some ((k, v), r3)
        | _ => none
    | _ => none

def parseObjRest : Nat → List Char → Option (List (List Char × Json) × List Char)
  | 0, _ => none
  | fuel + 1, s =>
    match skipWs s with
    | '\x7d' :: r => some ([], r)
    | ',' :: r =>
      match parseMember fuel r with
      | none => none
      | some (kv, r1) =>
        match parseObjRest fuel r1 with
        | none => none
        | some (kvs, r2) => some (kv :: kvs, r2)
    | _ => none

end

/-- `JSON.parse`: parse one value and require only whitespace after it;
`none` models a thrown `SyntaxError`. -/
def jsonParse (s : List Char) : Option Json :=
  match parseVal (3 * s.length + 3) s with
  | some (v, rest) => if skipWs rest = [] then some v else none
  | none => none

/-- The per-line parser of the stream read loop (`JSON.parse(line)`). -/
def jsonLine (l : List Char) : Option Json := jsonParse l

/-! ## `chatWithAgentStream` (api.ts): opening the stream and dispatching -/

/-- JavaScript property access `j?.error` after `JSON.parse`: only objects
have the property; `JSON.parse` keeps the last of duplicate keys. -/
def jsGetField (j : Json) (k : List Char) : Option Json :=
  match j with
  | .obj kvs => (kvs.reverse.find? (fun kv => kv.1 = k)).map (fun kv => kv.2)
  | _ => none

/-- A JSON number literal denotes zero iff its mantissa has no nonzero digit
(the exponent cannot make zero nonzero or vice versa). -/
def numIsZero (raw : List Char) : Bool :=
  ((raw.dropWhile (fun c => c == '-')).takeWhile
      (fun c => !(c == 'e' || c == 'E'))).all (fun c => c == '0' || c == '.')

/-- JavaScript truthiness of a value produced by `JSON.parse`. -/
def jsTruthy : Json → Bool
  | .null => false
  | .bool b => b
  | .num raw => !numIsZero raw
  | .str s => !s.isEmpty
  | .arr _ => true
  | .obj _ => true

mutual

/-- JavaScript template-literal stringification of a `JSON.parse` value. -/
def jsToString : Json → List Char
  | .null => "null".data
  | .bool true => "true".data
  | .bool false => "false".data
  | .num raw => raw
  | .str s => s
  | .arr xs => jsToStringElems xs
  | .obj _ => "[object Object]".data

def jsToStringElems : List Json → List Char
  | [] => []
  | [x] => jsToString x
  | x :: y :: xs => jsToString x ++ ',' :: jsToStringElems (y :: xs)

end

/-- The initial HTTP response of the streaming chat request.
`textResult = none` models `response.text()` throwing; `chunks = none`
models a `null` body (`response.body?.getReader()` unavailable). -/
structure FetchResponse where
  status : Nat
  statusText : List Char
  textResult : Option (List Char)
  chunks : Option (List (List Char))
  deriving DecidableEq, Repr

/-- `response.ok` of the Fetch API: status in the inclusive range 200–299. -/
def respOk (r : FetchResponse) : Bool := 200 ≤ r.status && r.status ≤ 299

/-- Diagnostic detail extracted on a non-ok response:

  try \x7b const text = await response.text();
        const json = JSON.parse(text);
        detail = json?.error || text; \x7d
  catch (_) \x7b detail = response.statusText || ''; \x7d -/
def errDetail (r : FetchResponse) : List Char :=
  match r.textResult with
  | none => r.statusText
  | some t =>
    match jsonParse t with
    | none => r.statusText
    | some j =>
      match jsGetField j "error".data with
      | some v => if jsTruthy v then jsToString v else t
      | none => t

def natToChars (n : Nat) : List Char := (toString n).data

/-- The thrown message: `HTTP $\x7bstatus\x7d $\x7bstatusText\x7d` plus
` - detail` when the detail is nonempty. -/
def httpErrMsg (status : Nat) (statusText detail : List Char) : List Char :=
  "HTTP ".data ++ natToChars status ++ ' ' :: statusText ++
    (if detail = [] then [] else " - ".data ++ detail)

/-- Prefix added by the outer catch before dispatching the error event. -/
def streamErrPrefix : List Char := "与智能体通信时出错: ".data

/-- The error frame the outer catch hands to `onMessage`. -/
def mkErrorEvent (msg : List Char) : Json :=
  Json.obj [("type".data, Json.str "error".data), ("error".data, Json.str msg)]

/-- `chatWithAgentStream` as the list of messages dispatched to `onMessage`:
a non-ok status (or missing body reader) throws, the outer catch converts the
throw into a single dispatched error event; otherwise the NDJSON read loop
dispatches the parsed lines. -/
def chatWithAgentStream (r : FetchResponse) : List Json :=
  if respOk r then
    match r.chunks with
    | none => [mkErrorEvent (streamErrPrefix ++ "无法获取响应流".data)]
    | some cs => runChunks jsonLine cs
  else
    [mkErrorEvent (streamErrPrefix ++ httpErrMsg r.status r.statusText (errDetail r))]

/-- The spec's P4 example body, split mid-line across two reads. -/
def c5chunksSplit : List (List Char) :=
  ["\x7b\"type\":\"sta".data, "rt\"\x7d\n\x7b\"type\":\"end\"\x7d\n".data]

/-- The same body bytes with each complete line in its own chunk. -/
def c5chunksLines : List (List Char) :=
  ["\x7b\"type\":\"start\"\x7d\n".data, "\x7b\"type\":\"end\"\x7d\n".data]

/-- A concrete failed initial response: HTTP 500 whose body is the backend's
standard error envelope. -/
def c7resp : FetchResponse :=
  { status := 500
    statusText := "Internal Server Error".data
    textResult := some "\x7b\"error\":\"boom\"\x7d".data
    chunks := none }

/-! ## Single-job polling tracker (`AsyncAIAnalysis`, src/unnamed/part_012)

The component polls `GET /async/ai/task/(task_id)` every 3 s with
`setInterval`, reconciling the client `status` state with each completed
response in `checkTaskStatus`, and cancels through `cancelTask`.  We model
one tracked job after a successful submission (`startAnalysis` has already
set `status = 'polling'`); re-submission starts a fresh job and is outside
the per-job relation.  `Date`/timer values are abstracted into
nondeterministic interleavings of the step relation. -/

/-- Remote (Celery) task status as reported by the backend. -/
inductive SStatus where
  | pending | started | progressing | success | failure | revoked
  deriving DecidableEq, Repr

def SStatus.isTerminal : SStatus → Bool
  | .success | .failure | .revoked => true
  | _ => false

/-- The `TaskStatusResponse` payload of a successful status request. -/
structure TaskSnapshot where
  status : SStatus
  message : List Char
  result : Option (List Char)
  taskError : Option (List Char)
  progress : Option Nat
  deriving DecidableEq, Repr

/-- Result of `getAsyncTaskStatus`: it never throws; any transport failure
is converted into `success: false` with an error string.  `fail err` carries
`response.error` (`[]` when absent). -/
inductive PollResult where
  | ok (d : TaskSnapshot)
  | fail (err : List Char)
  deriving DecidableEq, Repr

/-- JavaScript `a || b` on strings. -/
def jsOrStr (a b : List Char) : List Char := if a = [] then b else a

/-- JavaScript `hay.includes(needle)` (literal substring). -/
def strIncludes (hay needle : List Char) : Bool := decide (needle <:+: hay)

/-- The error text the backend uses for an unknown task, tested with
`response.error?.includes('任务不存在')`. -/
def notFoundText : List Char := "任务不存在".data

/-- Client-side `status` values reachable after submission succeeds
(`errored` renders the source's `'error'` string). -/
inductive CStatus where
  | polling | completed | errored | canceled
  deriving DecidableEq, Repr

/-- The tracker's client-held state.  `intervalActive` is whether the
`setInterval` handle is live; `inflight` counts outstanding status requests
(a ghost the code does not store); `observedTerminal` records that a
completed poll has reported `SUCCESS`/`FAILURE`/`REVOKED` (ghost); `server`
is the remote job's true status (ghost). -/
structure TrackerState where
  status : CStatus
  intervalActive : Bool
  inflight : Nat
  isCanceling : Bool
  cancelInFlight : Bool
  message : List Char
  result : Option (List Char)
  errorMsg : Option (List Char)
  progress : Nat
  observedTerminal : Bool
  server : SStatus
  deriving DecidableEq, Repr

/-- `checkTaskStatus` processing one completed response (the code after
`await getAsyncTaskStatus(taskId)`).  The source tests the three terminal
groups in sequence on the same snapshot; a single status value makes them
mutually exclusive. -/
def checkTaskStatus (s : TrackerState) : PollResult → TrackerState
  | .ok d =>
    if d.status = .success then
      { s with message := d.message, progress := d.progress.getD s.progress,
               intervalActive := false, status := .completed, result := d.result,
               observedTerminal := true }
    else if d.status = .failure then
      { s with message := d.message, progress := d.progress.getD s.progress,
               intervalActive := false, status := .errored,
               errorMsg := some (jsOrStr (d.taskError.getD []) "分析任务失败".data),
               observedTerminal := true }
    else if d.status = .revoked then
      { s with progress := d.progress.getD s.progress,
               intervalActive := false, status := .canceled,
               message := "分析任务已取消".data, isCanceling := false,
               observedTerminal := true }
    else
      { s with message := d.message, progress := d.progress.getD s.progress }
  | .fail err =>
    if strIncludes err notFoundText then
      { s with errorMsg := some (jsOrStr err "获取任务状态失败".data),
               intervalActive := false, status := .errored }
    else
      { s with errorMsg := some (jsOrStr err "获取任务状态失败".data) }

/-- Labels of the tracker step relation. -/
inductive Act where
  | serverStep (next : SStatus)
  | activate
  | tick
  | deliver (r : PollResult)
  | cancelReq
  | cancelOk
  | cancelFail
  deriving DecidableEq, Repr

/-- One step of the tracked job's execution.

* `serverStep`: the remote worker moves; terminal statuses are absorbing.
* `activate`: the `useEffect` installs the 3 s `setInterval` while
  `status === 'polling'` and no handle is live.
* `tick`: the interval fires and `checkTaskStatus` issues a status request.
* `deliver`: an outstanding request resolves and its handler runs.  A
  successful snapshot carries either the server's current status or a stale
  live one (a terminal status can never be reported unless the server
  reached it, since terminal states are absorbing).
* `cancelReq`: the user presses cancel (shown only while live, disabled
  while `isCanceling`); `cancelAsyncTask` is issued.
* `cancelOk`: the cancellation resolves with `success: true`.  Modelled from
  the spec: the backend `DELETE /async/ai/task/(task_id)` handler is absent
  from src/; per the spec, cancellation of a job that already reached a
  terminal state is a no-op, so a success acknowledgment means the job was
  actually revoked.
* `cancelFail`: the cancellation resolves with `success: false`; the handler
  records the failure and immediately awaits `checkTaskStatus()`, issuing
  one more status request. -/
inductive Step : TrackerState → Act → TrackerState → Prop where
  | serverStep {s : TrackerState} {nx : SStatus}
      (hlive : s.server.isTerminal = false) :
      Step s (.serverStep nx) { s with server := nx }
  | activate {s : TrackerState}
      (h1 : s.status = .polling) (h2 : s.intervalActive = false) :
      Step s .activate { s with intervalActive := true }
  | tick {s : TrackerState} (h : s.intervalActive = true) :
      Step s .tick { s with inflight := s.inflight + 1 }
  | deliverOk {s : TrackerState} {d : TaskSnapshot} (hin : 0 < s.inflight)
      (hsrv : d.status = s.server ∨ d.status.isTerminal = false) :
      Step s (.deliver (.ok d)) (checkTaskStatus { s with inflight := s.inflight - 1 } (.ok d))
  | deliverFail {s : TrackerState} {err : List Char} (hin : 0 < s.inflight) :
      Step s (.deliver (.fail err)) (checkTaskStatus { s with inflight := s.inflight - 1 } (.fail err))
  | cancelReq {s : TrackerState}
      (hshow : s.status = .polling) (hnc : s.isCanceling = false) :
      Step s .cancelReq { s with isCanceling := true, cancelInFlight := true,
                                 message := "正在取消分析...".data }
  | cancelOk {s : TrackerState}
      (hc : s.cancelInFlight = true) (hsrv : s.server = .revoked) :
      Step s .cancelOk { s with cancelInFlight := false, isCanceling := false,
                                intervalActive := false, status := .canceled,
                                message := "分析任务已取消".data }
  | cancelFail {s : TrackerState} (hc : s.cancelInFlight = true) :
      Step s .cancelFail { s with cancelInFlight := false, isCanceling := false,
                                  errorMsg := some "取消任务失败".data,
                                  message := "取消任务失败，任务可能已结束".data,
                                  inflight := s.inflight + 1 }

/-- Tracker state right after `startAnalysis` succeeded. -/
def initTracker : TrackerState :=
  { status := .polling, intervalActive := false, inflight := 0,
    isCanceling := false, cancelInFlight := false,
    message := "已启动分析任务".data, result := none, errorMsg := none,
    progress := 0, observedTerminal := false, server := .pending }

/-- States reachable in some execution of the tracked job. -/
inductive Reach : TrackerState → Prop where
  | init : Reach initTracker
  | step {s s' : TrackerState} {a : Act} (hr : Reach s) (hs : Step s a s') : Reach s'

/-- Reachability from a given state onwards. -/
abbrev ReachFrom (s t : TrackerState) : Prop :=
  Relation.ReflTransGen (fun a b => ∃ l, Step a l b) s t

/-! ## Batch coordinator (`BatchAnalysis.tsx`)

`pollTaskStatus` installs a 2 s `setInterval` at once; each tick awaits
`GET /async/ai/task/(task_id)`.  A response's status is copied into state;
`SUCCESS` and `FAILURE` clear the interval.  The `catch` branch clears the
interval on any request failure. -/

/-- `response.data.data` of the batch status request. -/
structure BatchSnapshot where
  status : SStatus
  progress : Option Nat
  deriving DecidableEq, Repr

structure BatchState where
  status : Option SStatus
  progress : Nat
  intervalActive : Bool
  inflight : Nat
  /-- Ghost: a completed poll reported `SUCCESS`/`FAILURE`/`REVOKED`. -/
  observedTerminal : Bool
  /-- Ghost: a completed poll reported `SUCCESS` or `FAILURE` (the statuses
  the code stops on). -/
  observedDone : Bool
  deriving DecidableEq, Repr

/-- The body of the interval callback on a successful response.  `setStatus`
always runs; `setProgress` only when `meta?.progress` is truthy; the interval
is cleared exactly when the status is `SUCCESS` or `FAILURE`. -/
def batchHandle (b : BatchState) (d : BatchSnapshot) : BatchState :=
  if d.status = .success ∨ d.status = .failure then
    { b with
      status := some d.status
      progress := match d.progress with
        | some p => if p = 0 then b.progress else p
        | none => b.progress
      observedTerminal := b.observedTerminal || d.status.isTerminal
      intervalActive := false
      observedDone := true }
  else
    { b with
      status := some d.status
      progress := match d.progress with
        | some p => if p = 0 then b.progress else p
        | none => b.progress
      observedTerminal := b.observedTerminal || d.status.isTerminal }

inductive BatchAct where
  | tick
  | deliverOk (d : BatchSnapshot)
  | deliverErr
  deriving DecidableEq, Repr

inductive BatchStep : BatchState → BatchAct → BatchState → Prop where
  | tick {b : BatchState} (h : b.intervalActive = true) :
      BatchStep b .tick { b with inflight := b.inflight + 1 }
  | deliverOk {b : BatchState} {d : BatchSnapshot} (hin : 0 < b.inflight) :
      BatchStep b (.deliverOk d) (batchHandle { b with inflight := b.inflight - 1 } d)
  | deliverErr {b : BatchState} (hin : 0 < b.inflight) :
      BatchStep b .deliverErr { b with inflight := b.inflight - 1, intervalActive := false }

/-- State right after `pollTaskStatus` installs the interval. -/
def initBatch : BatchState :=
  { status := none, progress := 0, intervalActive := true, inflight := 0,
    observedTerminal := false, observedDone := false }

inductive BatchReach : BatchState → Prop where
  | init : BatchReach initBatch
  | step {b b' : BatchState} {a : BatchAct} (hr : BatchReach b) (hs : BatchStep b a b') :
      BatchReach b'

/-! ## Streaming conversation reducer (`handleStreamingChat`, textarea.tsx)

The `onMessage` callback switches on `message.type` and folds the frames
into the chat view: one streaming assistant message, a `toolOutputs`
accumulator, and the transient status line. -/

/-- A typed frame, as read off the parsed JSON by the `switch`. -/
inductive Frame where
  | start (sessionId : List Char)
  | thinking (content : List Char)
  | toolCalls
  | toolStart (toolName : List Char)
  | toolResult (toolName : List Char) (formattedResult : Option (List Char))
  | content (c : List Char)
  | ended
  | errorFrame (e : List Char)
  deriving DecidableEq, Repr

/-- The state the reducer maintains: the session id, the transient
`streamingMessage` status line, the single streaming assistant message and
its attached tool outputs, and whether the streaming placeholder is open. -/
structure ChatView where
  sessionId : Option (List Char)
  streamingNote : List Char
  messageContent : List Char
  toolOutputs : List (List Char)
  attachedToolOutputs : Option (List (List Char))
  streamingOpen : Bool
  deriving DecidableEq, Repr

/-- One `onMessage` dispatch.  `tool_result` records
`message.formatted_result` only when it is truthy (a nonempty string);
`content` writes the final text into the streaming message and attaches the
accumulated tool outputs when there are any. -/
def handleFrame (v : ChatView) : Frame → ChatView
  | .start sid => { v with sessionId := some sid }
  | .thinking c => { v with streamingNote := c }
  | .toolCalls => { v with streamingNote := "正在执行工具调用...".data }
  | .toolStart n => { v with streamingNote := "正在执行 ".data ++ n ++ "...".data }
  | .toolResult _ fr =>
    { v with
      toolOutputs := v.toolOutputs ++
        (match fr with
         | some r => if r = [] then [] else [r]
         | none => [])
      streamingNote := "正在处理工具结果...".data }
  | .content c =>
    { v with
      streamingOpen := false
      streamingNote := []
      messageContent := c
      attachedToolOutputs := if v.toolOutputs = [] then none else some v.toolOutputs }
  | .ended => { v with streamingOpen := false, streamingNote := [] }
  | .errorFrame e =>
    { v with
      streamingOpen := false
      streamingNote := []
      messageContent := "错误: ".data ++ e }

/-- The freshly created streaming assistant message. -/
def initChatView : ChatView :=
  { sessionId := none, streamingNote := [], messageContent := [],
    toolOutputs := [], attachedToolOutputs := none, streamingOpen := true }

/-- Folding a whole frame sequence through the reducer. -/
def runChat (frames : List Frame) : ChatView :=
  frames.foldl handleFrame initChatView

/-- The frame sequence of the spec's streaming scenario, with `r` the
formatted result carried by the `tool_result` frame. -/
def scenarioFrames (sid thought r : List Char) : List Frame :=
  [.start sid, .thinking thought, .toolCalls, .toolStart "search".data,
   .toolResult "search".data (some r), .content "hi there".data, .ended]

/-! ## IndexedDB response cache (`IndexedDBCacheService`, src/unnamed/part_007)

The object store keyed by strings is modelled as an association list;
`Date.now()` is an explicit `now : Nat` (milliseconds).  `put` overwrites by
key (IndexedDB key order does not matter to the claims). -/

structure CacheItem (α : Type) where
  value : α
  expireTime : Nat
  lastAccessed : Nat
  deriving DecidableEq, Repr

/-- The `cache-store` object store contents. -/
abbrev Store (α : Type) : Type := List (String × CacheItem α)

/-- `db.get(storeName, key)`. -/
def dbGet {α : Type} (db : Store α) (k : String) : Option (CacheItem α) :=
  (db.find? (fun p => p.1 = k)).map (fun p => p.2)

/-- `db.delete(storeName, key)`. -/
def dbDelete {α : Type} (db : Store α) (k : String) : Store α :=
  db.filter (fun p => ¬ p.1 = k)

/-- `db.put(storeName, item, key)`: unconditional overwrite by key. -/
def dbPut {α : Type} (db : Store α) (k : String) (it : CacheItem α) : Store α :=
  (k, it) :: dbDelete db k

/-- `IndexedDBCacheService.get`: absent keys and entries with
`now > expireTime` read as `null`; an expired entry is deleted by the read,
a live one gets its `lastAccessed` refreshed and written back. -/
def cacheGet {α : Type} (db : Store α) (now : Nat) (k : String) :
    Option α × Store α :=
  match dbGet db k with
  | none => (none, db)
  | some it =>
    if it.expireTime < now then (none, dbDelete db k)
    else (some it.value, dbPut db k { it with lastAccessed := now })

/-- `_defaultTTL = 3600 * 1000` (one hour, in ms). -/
def defaultTTL : Nat := 3600 * 1000

/-- `IndexedDBCacheService.set`: `const ttlMs = (ttl || this._defaultTTL)` —
an omitted ttl and an explicit `0` both fall back to the default. -/
def cacheSet {α : Type} (db : Store α) (now : Nat) (k : String) (v : α)
    (ttl : Option Nat) : Store α :=
  let ttlMs := match ttl with
    | none => defaultTTL
    | some t => if t = 0 then defaultTTL else t
  dbPut db k { value := v, expireTime := now + ttlMs, lastAccessed := now }

structure CacheStats where
  totalItems : Nat
  activeItems : Nat
  expiredItems : Nat
  cacheKeys : List String
  deriving DecidableEq, Repr

/-- `IndexedDBCacheService.getStats`. -/
def getStats {α : Type} (db : Store α) (now : Nat) : CacheStats :=
  let expired := db.filter (fun p => p.2.expireTime < now)
  { totalItems := db.length
    activeItems := db.length - expired.length
    expiredItems := expired.length
    cacheKeys := db.map (fun p => p.1) }

/-! ## Invariants and concrete execution states used by the claims -/

/-- Inductive invariant of the single-job tracker: once a completed poll has
reported a terminal status the interval is gone and the client status has
left `polling` (so the interval can never be reinstalled); and the client
reaches `canceled` only when the server really revoked the job. -/
abbrev TrackerInv (s : TrackerState) : Prop :=
  (s.observedTerminal = true → s.intervalActive = false ∧ s.status ≠ .polling)
  ∧ (s.status = .canceled → s.server = .revoked)

/-- Once the remote job succeeded, the tracker can never present it as
canceled. -/
abbrev SuccessLock (s : TrackerState) : Prop :=
  s.server = .success ∧ s.status ≠ .canceled

/-- Batch coordinator invariant: after a `SUCCESS`/`FAILURE` response the
interval is gone. -/
abbrev BatchInvDone (b : BatchState) : Prop :=
  b.observedDone = true → b.intervalActive = false

/-- Executions in which every poll request (interval tick, or the direct
status check issued by a failed cancellation) is issued only once no earlier
request is still in flight — i.e. every response arrives within one tick
interval. -/
inductive SyncReach : TrackerState → Prop where
  | init : SyncReach initTracker
  | step {s s' : TrackerState} {a : Act} (hr : SyncReach s) (hs : Step s a s')
      (hguard : (a = .tick ∨ a = .cancelFail) → s.inflight = 0) : SyncReach s'

/-- A `SUCCESS` snapshot carrying a result. -/
def snapSuccess : TaskSnapshot :=
  { status := .success, message := "分析完成".data, result := some "R".data,
    taskError := none, progress := some 100 }

/-- Tracker after the server finished the job. -/
def twServer : TrackerState := { initTracker with server := .success }

/-- ... and the `useEffect` installed the interval. -/
def twActive : TrackerState := { twServer with intervalActive := true }

/-- ... and one tick issued a poll. -/
def twTicked : TrackerState := { twActive with inflight := twActive.inflight + 1 }

/-- ... and that poll delivered the `SUCCESS` snapshot. -/
def twDone : TrackerState :=
  checkTaskStatus { twTicked with inflight := twTicked.inflight - 1 } (.ok snapSuccess)

/-- From `twTicked`, the user pressed cancel while the poll was in flight. -/
def twCancel : TrackerState :=
  { twTicked with isCanceling := true, cancelInFlight := true,
                  message := "正在取消分析...".data }

/-- ... and then the in-flight poll delivered the `SUCCESS` snapshot. -/
def twCancelDone : TrackerState :=
  checkTaskStatus { twCancel with inflight := twCancel.inflight - 1 } (.ok snapSuccess)

/-- Tracker (server still live) with the interval installed. -/
def taActive : TrackerState := { initTracker with intervalActive := true }

/-- ... after one tick. -/
def taTick1 : TrackerState := { taActive with inflight := taActive.inflight + 1 }

/-- ... after a second tick fired before the first poll resolved. -/
def taTick2 : TrackerState := { taTick1 with inflight := taTick1.inflight + 1 }

/-- The transport-failure text produced by the `catch` in
`getAsyncTaskStatus`; it does not contain `任务不存在`. -/
def transportErrText : List Char := "获取任务状态时出错".data

/-- `taTick1` after its poll failed at the transport level. -/
def taFailSwallow : TrackerState :=
  checkTaskStatus { taTick1 with inflight := taTick1.inflight - 1 } (.fail transportErrText)

/-- `taTick1` after its poll failed with the job-does-not-exist text. -/
def taFailNotFound : TrackerState :=
  checkTaskStatus { taTick1 with inflight := taTick1.inflight - 1 } (.fail notFoundText)

/-- Batch coordinator after its first tick. -/
def bTicked : BatchState := { initBatch with inflight := initBatch.inflight + 1 }

def snapRevoked : BatchSnapshot := { status := .revoked, progress := none }

def snapBatchDone : BatchSnapshot := { status := .success, progress := some 100 }

/-- Batch state after the poll reported `REVOKED`. -/
def bRevoked : BatchState :=
  batchHandle { bTicked with inflight := bTicked.inflight - 1 } snapRevoked

/-- Batch state after the poll reported `SUCCESS`. -/
def bDone : BatchState :=
  batchHandle { bTicked with inflight := bTicked.inflight - 1 } snapBatchDone

/-- Batch state after the poll failed at the transport level (the `catch`
branch ran). -/
def bErr : BatchState :=
  { bTicked with inflight := bTicked.inflight - 1, intervalActive := false }

/-- A cache entry that expires at t = 5 ms. -/
def c8item : CacheItem Nat := { value := 7, expireTime := 5, lastAccessed := 0 }

def c8db : Store Nat := [("k", c8item)]

/-! # Theorems -/

/-! ## Stream framing -/

theorem scanLines_no_newline {b : List Char} (h : '\n' ∉ b) :
    scanLines b = ([], b) := by
  induction b with
  | nil => rfl
  | cons c cs ih =>
    have hc : ¬ c = '\n' := fun hc => h (hc ▸ List.mem_cons_self c cs)
    have hcs : '\n' ∉ cs := fun hm => h (List.mem_cons_of_mem c hm)
    simp [scanLines, hc, ih hcs]

theorem newline_not_mem_scanLines_snd (s : List Char) : '\n' ∉ (scanLines s).2 := by
  induction s with
  | nil => simp [scanLines]
  | cons c cs ih =>
    by_cases hc : c = '\n'
    · simp [scanLines, hc, ih]
    · cases hp : (scanLines cs).1 with
      | nil =>
        simp only [scanLines, if_neg hc, hp]
        intro hmem
        rcases List.mem_cons.mp hmem with h | h
        · exact hc h.symm
        · exact ih h
      | cons l ls => simpa [scanLines, hc, hp] using ih

theorem scanLines_append (a b : List Char) :
    scanLines (a ++ b) =
      ((scanLines a).1 ++ (scanLines ((scanLines a).2 ++ b)).1,
       (scanLines ((scanLines a).2 ++ b)).2) := by
  induction a with
  | nil => simp [scanLines]
  | cons c a' ih =>
    rcases h : scanLines a' with ⟨p1, p2⟩
    rw [h] at ih
    simp only at ih
    rcases hq : scanLines (p2 ++ b) with ⟨q1, q2⟩
    rw [hq] at ih
    simp only at ih
    by_cases hc : c = '\n'
    · simp [scanLines, hc, h, hq, ih]
    · cases p1 with
      | nil =>
        cases q1 with
        | nil => simp [scanLines, hc, h, hq, ih]
        | cons l ls => simp [scanLines, hc, h, hq, ih]
      | cons l ls => simp [scanLines, hc, h, hq, ih]

/-- The read loop equals the one-shot split of the concatenated body: it
dispatches exactly the events of the newline-terminated lines, in order,
and never parses the trailing partial line. -/
theorem runChunksAux_eq {α : Type} (parse : List Char → Option α) :
    ∀ (cs : List (List Char)) (buf : List Char), '\n' ∉ buf →
      runChunksAux parse buf cs =
        ((scanLines (buf ++ cs.flatten)).1).filterMap (lineEvent parse)
  | [], buf, h => by
    simp [runChunksAux, scanLines_no_newline h]
  | c :: cs, buf, h => by
    simp only [runChunksAux]
    rw [runChunksAux_eq parse cs (scanLines (buf ++ c)).2
        (newline_not_mem_scanLines_snd _)]
    rw [List.flatten_cons, ← List.append_assoc, scanLines_append (buf ++ c) cs.flatten]
    simp [List.filterMap_append]

/-- C5.  Frame-reassembly invariance of the NDJSON decoder: running the
stream read loop on body bytes split at arbitrary chunk boundaries —
including mid-line — dispatches exactly the same ordered event list as any
other chunking of the same bytes, in particular as feeding each complete
line in its own chunk; the trailing partial line is buffered across reads
and parsed only once its terminating newline has arrived.  Holds for every
line parser. -/
theorem c5_stream_reassembly {α : Type} (parse : List Char → Option α)
    (cs ds : List (List Char)) (h : cs.flatten = ds.flatten) :
    runChunks parse cs = runChunks parse ds := by
  unfold runChunks
  rw [runChunksAux_eq parse cs [] (by simp),
      runChunksAux_eq parse ds [] (by simp), h]

theorem c5_stream_reassembly_witness :
    c5chunksSplit.flatten = c5chunksLines.flatten
    ∧ runChunks jsonLine c5chunksSplit = runChunks jsonLine c5chunksLines
    ∧ runChunks jsonLine c5chunksSplit
        = [Json.obj [("type".data, Json.str "start".data)],
           Json.obj [("type".data, Json.str "end".data)]] :=
  ⟨by decide, c5_stream_reassembly jsonLine c5chunksSplit c5chunksLines (by decide),
   by rfl⟩

/-- C6.  A stream line that is not valid JSON is skipped — the decoder
dispatches nothing for it and, being a total function, throws nothing — and
later well-formed lines are still dispatched: on the body
`not-json\n(type:end)\n` exactly the single `end` event is dispatched. -/
theorem c6_malformed_line_skipped :
    runChunks jsonLine ["not-json\n\x7b\"type\":\"end\"\x7d\n".data]
      = [Json.obj [("type".data, Json.str "end".data)]]
    ∧ lineEvent jsonLine "not-json".data = none := by
  exact ⟨by rfl, by rfl⟩

/-- C7.  If the initial HTTP response status is not a success status, the
stream fails with exactly one dispatched error event — no other event is
delivered — whose message carries the textual error body (or its parsed
`error` field) as diagnostic detail, appended as the suffix of the message
whenever the detail is nonempty. -/
theorem c7_transport_error (r : FetchResponse) (h : respOk r = false) :
    chatWithAgentStream r
      = [mkErrorEvent (streamErrPrefix ++ httpErrMsg r.status r.statusText (errDetail r))]
    ∧ (errDetail r ≠ [] →
        List.IsSuffix (errDetail r)
          (streamErrPrefix ++ httpErrMsg r.status r.statusText (errDetail r))) := by
  constructor
  · simp [chatWithAgentStream, h]
  · intro hd
    refine ⟨streamErrPrefix ++ ("HTTP ".data ++ natToChars r.status ++ ' ' :: r.statusText
      ++ " - ".data), ?_⟩
    simp [httpErrMsg, hd, List.append_assoc]

/-! ## Tracker invariants -/

theorem checkTaskStatus_inflight (s : TrackerState) (r : PollResult) :
    (checkTaskStatus s r).inflight = s.inflight := by
  cases r with
  | ok d => simp only [checkTaskStatus]; split_ifs <;> rfl
  | fail err => simp only [checkTaskStatus]; split_ifs <;> rfl

theorem checkTaskStatus_server (s : TrackerState) (r : PollResult) :
    (checkTaskStatus s r).server = s.server := by
  cases r with
  | ok d => simp only [checkTaskStatus]; split_ifs <;> rfl
  | fail err => simp only [checkTaskStatus]; split_ifs <;> rfl

theorem trackerInv_step {s s' : TrackerState} {a : Act}
    (hI : TrackerInv s) (hs : Step s a s') : TrackerInv s' := by
  obtain ⟨h1, h2⟩ := hI
  cases hs with
  | serverStep hlive =>
    refine ⟨h1, fun hc => absurd hlive ?_⟩
    rw [h2 hc]
    decide
  | activate h1' h2' =>
    exact ⟨fun ho => absurd h1' (h1 ho).2, h2⟩
  | tick h => exact ⟨h1, h2⟩
  | deliverOk hin hsrv =>
    rename_i d
    by_cases hsu : d.status = .success
    · simp only [checkTaskStatus, if_pos hsu]
      exact ⟨fun _ => ⟨rfl, nofun⟩, nofun⟩
    · by_cases hfa : d.status = .failure
      · simp only [checkTaskStatus, if_neg hsu, if_pos hfa]
        exact ⟨fun _ => ⟨rfl, nofun⟩, nofun⟩
      · by_cases hre : d.status = .revoked
        · simp only [checkTaskStatus, if_neg hsu, if_neg hfa, if_pos hre]
          refine ⟨fun _ => ⟨rfl, nofun⟩, fun _ => ?_⟩
          rcases hsrv with h | h
          · rw [hre] at h; exact h.symm
          · rw [hre] at h; exact absurd h (by decide)
        · simp only [checkTaskStatus, if_neg hsu, if_neg hfa, if_neg hre]
          exact ⟨h1, h2⟩
  | deliverFail hin =>
    rename_i err
    by_cases hnf : strIncludes err notFoundText
    · simp only [checkTaskStatus, if_pos hnf]
      exact ⟨fun _ => ⟨rfl, nofun⟩, nofun⟩
    · simp only [checkTaskStatus, if_neg hnf]
      exact ⟨h1, h2⟩
  | cancelReq hshow hnc => exact ⟨h1, h2⟩
  | cancelOk hc hsrv => exact ⟨fun _ => ⟨rfl, nofun⟩, fun _ => hsrv⟩
  | cancelFail hc => exact ⟨h1, h2⟩

theorem reach_trackerInv {s : TrackerState} (h : Reach s) : TrackerInv s := by
  induction h with
  | init => exact ⟨fun ho => absurd ho (by decide), fun hc => absurd hc (by decide)⟩
  | step hr hs ih => exact trackerInv_step ih hs

theorem batchInvDone_step {b b' : BatchState} {a : BatchAct}
    (hI : BatchInvDone b) (hs : BatchStep b a b') : BatchInvDone b' := by
  cases hs with
  | tick h => exact hI
  | deliverOk hin =>
    rename_i d
    by_cases hd : d.status = .success ∨ d.status = .failure
    · simp only [batchHandle, if_pos hd]
      exact fun _ => rfl
    · simp only [batchHandle, if_neg hd]
      exact hI
  | deliverErr hin => exact fun _ => rfl

theorem batchReach_invDone {b : BatchState} (h : BatchReach b) : BatchInvDone b := by
  induction h with
  | init => exact fun ho => absurd ho (by decide)
  | step hr hs ih => exact batchInvDone_step ih hs

theorem successLock_step {s s' : TrackerState} {a : Act}
    (hL : SuccessLock s) (hs : Step s a s') : SuccessLock s' := by
  obtain ⟨hsv, hst⟩ := hL
  cases hs with
  | serverStep hlive =>
    rw [hsv] at hlive
    exact absurd hlive (by decide)
  | activate h1 h2 => exact ⟨hsv, hst⟩
  | tick h => exact ⟨hsv, hst⟩
  | deliverOk hin hsrv =>
    rename_i d
    by_cases hsu : d.status = .success
    · simp only [checkTaskStatus, if_pos hsu]
      exact ⟨hsv, nofun⟩
    · by_cases hfa : d.status = .failure
      · exfalso
        rcases hsrv with h | h
        · rw [hfa, hsv] at h; exact absurd h (by decide)
        · rw [hfa] at h; exact absurd h (by decide)
      · by_cases hre : d.status = .revoked
        · exfalso
          rcases hsrv with h | h
          · rw [hre, hsv] at h; exact absurd h (by decide)
          · rw [hre] at h; exact absurd h (by decide)
        · simp only [checkTaskStatus, if_neg hsu, if_neg hfa, if_neg hre]
          exact ⟨hsv, hst⟩
  | deliverFail hin =>
    rename_i err
    by_cases hnf : strIncludes err notFoundText
    · simp only [checkTaskStatus, if_pos hnf]
      exact ⟨hsv, nofun⟩
    · simp only [checkTaskStatus, if_neg hnf]
      exact ⟨hsv, hst⟩
  | cancelReq hshow hnc => exact ⟨hsv, hst⟩
  | cancelOk hc hsrv2 =>
    exact absurd (hsv ▸ hsrv2) (by decide)
  | cancelFail hc => exact ⟨hsv, hst⟩

theorem reachFrom_successLock {s t : TrackerState}
    (hL : SuccessLock s) (h : ReachFrom s t) : SuccessLock t := by
  induction h with
  | refl => exact hL
  | tail hab hbc ih =>
    obtain ⟨l, hl⟩ := hbc
    exact successLock_step ih hl

/-! ## Claims C1–C4 -/

/-- C1, counterexample.  The claim asserts that once a completed poll reports
`SUCCESS`, `FAILURE` or `REVOKED`, no further poll tick is issued, for every
tracked job — including the batch coordinator.  The batch coordinator only
stops its interval on `SUCCESS` and `FAILURE`: in the concrete execution
tick → deliver(`REVOKED`), the terminal `REVOKED` has been observed and the
interval is still live, so the next poll tick fires. -/
theorem c1_counterexample :
    BatchReach bRevoked ∧ bRevoked.status = some .revoked
    ∧ bRevoked.observedTerminal = true
    ∧ BatchStep bRevoked .tick { bRevoked with inflight := bRevoked.inflight + 1 } := by
  refine ⟨?_, by decide, by decide, BatchStep.tick (by decide)⟩
  exact BatchReach.step (BatchReach.step BatchReach.init (BatchStep.tick (by decide)))
    (BatchStep.deliverOk (by decide))

/-- C1, amended.  For the single-job tracker, once a completed poll has
reported a terminal status (`SUCCESS`/`FAILURE`/`REVOKED`), no further poll
tick is ever issued (a cancellation acknowledged as failed may still issue
one direct status request, which is not an interval tick).  The batch
coordinator stops ticking once a poll has reported `SUCCESS` or `FAILURE`,
but keeps polling after `REVOKED`. -/
theorem c1_amended_terminal_stop :
    (∀ s : TrackerState, Reach s → s.observedTerminal = true →
      ∀ s' : TrackerState, ¬ Step s .tick s')
    ∧ (∀ b : BatchState, BatchReach b → b.observedDone = true →
      ∀ b' : BatchState, ¬ BatchStep b .tick b') := by
  constructor
  · intro s hr ho s' hstep
    have hia : s.intervalActive = false := ((reach_trackerInv hr).1 ho).1
    cases hstep with
    | tick h => rw [hia] at h; exact Bool.noConfusion h
  · intro b hr ho b' hstep
    have hia : b.intervalActive = false := batchReach_invDone hr ho
    cases hstep with
    | tick h => rw [hia] at h; exact Bool.noConfusion h

theorem c1_amended_terminal_stop_witness :
    (Reach twDone ∧ twDone.observedTerminal = true
      ∧ ¬ Step twDone .tick { twDone with inflight := twDone.inflight + 1 })
    ∧ (BatchReach bDone ∧ bDone.observedDone = true
      ∧ ¬ BatchStep bDone .tick { bDone with inflight := bDone.inflight + 1 }) := by
  have h0 : Step initTracker (.serverStep .success) twServer := Step.serverStep (by decide)
  have h1 : Step twServer .activate twActive := Step.activate (by decide) (by decide)
  have h2 : Step twActive .tick twTicked := Step.tick (by decide)
  have h3 : Step twTicked (.deliver (.ok snapSuccess)) twDone :=
    Step.deliverOk (by decide) (by decide)
  have hreach : Reach twDone :=
    Reach.step (Reach.step (Reach.step (Reach.step Reach.init h0) h1) h2) h3
  have hbreach : BatchReach bDone :=
    BatchReach.step (BatchReach.step BatchReach.init (BatchStep.tick (by decide)))
      (BatchStep.deliverOk (by decide))
  exact ⟨⟨hreach, by decide,
          c1_amended_terminal_stop.1 twDone hreach (by decide)
            { twDone with inflight := twDone.inflight + 1 }⟩,
         ⟨hbreach, by decide,
          c1_amended_terminal_stop.2 bDone hbreach (by decide)
            { bDone with inflight := bDone.inflight + 1 }⟩⟩

/-- C2.  If `cancel()` has been called on a live job and the next completed
poll reports `SUCCESS`, the tracker adopts the server's terminal state: the
handler makes the status `completed` and delivers the result, and in every
continuation of the execution the status is never `canceled` (server truth
wins — a cancellation of an already-succeeded job cannot be acknowledged as
successful, and a `REVOKED` snapshot can no longer be delivered). -/
theorem c2_cancel_race_server_truth_wins
    (s : TrackerState) (d : TaskSnapshot) (s' : TrackerState)
    (hreach : Reach s) (hcancel : s.isCanceling = true)
    (hstat : d.status = .success)
    (hstep : Step s (.deliver (.ok d)) s') :
    s'.status = .completed ∧ s'.result = d.result
    ∧ ∀ t, ReachFrom s' t → t.status ≠ .canceled := by
  cases hstep with
  | deliverOk hin hsrv =>
    have hsv : s.server = .success := by
      rcases hsrv with h | h
      · rw [hstat] at h; exact h.symm
      · rw [hstat] at h; exact absurd h (by decide)
    refine ⟨by simp [checkTaskStatus, hstat], by simp [checkTaskStatus, hstat], ?_⟩
    have hL : SuccessLock (checkTaskStatus { s with inflight := s.inflight - 1 } (.ok d)) := by
      refine ⟨?_, ?_⟩
      · rw [checkTaskStatus_server]; exact hsv
      · simp [checkTaskStatus, hstat]
    exact fun t h => (reachFrom_successLock hL h).2

theorem c2_cancel_race_server_truth_wins_witness :
    Reach twCancel ∧ twCancel.isCanceling = true ∧ snapSuccess.status = .success
    ∧ twCancelDone.status = .completed
    ∧ twCancelDone.result = snapSuccess.result
    ∧ twCancelDone.status ≠ .canceled := by
  have h0 : Step initTracker (.serverStep .success) twServer := Step.serverStep (by decide)
  have h1 : Step twServer .activate twActive := Step.activate (by decide) (by decide)
  have h2 : Step twActive .tick twTicked := Step.tick (by decide)
  have h4 : Step twTicked .cancelReq twCancel := Step.cancelReq (by decide) (by decide)
  have h5 : Step twCancel (.deliver (.ok snapSuccess)) twCancelDone :=
    Step.deliverOk (by decide) (by decide)
  have hreach : Reach twCancel :=
    Reach.step (Reach.step (Reach.step (Reach.step Reach.init h0) h1) h2) h4
  have hmain := c2_cancel_race_server_truth_wins twCancel snapSuccess twCancelDone
    hreach (by decide) (by decide) h5
  exact ⟨hreach, by decide, by decide, hmain.1, hmain.2.1,
         hmain.2.2 twCancelDone Relation.ReflTransGen.refl⟩

/-- C3, counterexample.  The polling loop is a bare `setInterval` with no
in-flight guard: in the concrete execution activate → tick → tick (the first
response still pending when the second tick fires), two polls are
outstanding at once, so poll n+1 is issued before poll n resolves. -/
theorem c3_counterexample : Reach taTick2 ∧ taTick2.inflight = 2 := by
  refine ⟨?_, by decide⟩
  exact Reach.step (Reach.step (Reach.step Reach.init
    (Step.activate (by decide) (by decide))) (Step.tick (by decide)))
    (Step.tick (by decide))

/-- C3, amended.  The fixed-interval loop issues ticks regardless of whether
the previous poll has resolved, so in general more than one poll can be
outstanding; at most one poll is outstanding at any time exactly in those
executions in which every poll request is issued only after all earlier
requests have resolved (i.e. every response arrives within one tick
interval). -/
theorem c3_amended_single_outstanding (s : TrackerState) (h : SyncReach s) :
    s.inflight ≤ 1 := by
  induction h with
  | init => decide
  | step hr hs hguard ih =>
    cases hs with
    | serverStep hlive => exact ih
    | activate h1 h2 => exact ih
    | tick h =>
      have h0 := hguard (Or.inl rfl)
      show _ + 1 ≤ 1
      omega
    | deliverOk hin hsrv =>
      rw [checkTaskStatus_inflight]
      show _ - 1 ≤ 1
      omega
    | deliverFail hin =>
      rw [checkTaskStatus_inflight]
      show _ - 1 ≤ 1
      omega
    | cancelReq hshow hnc => exact ih
    | cancelOk hc hsrv => exact ih
    | cancelFail hc =>
      have h0 := hguard (Or.inr rfl)
      show _ + 1 ≤ 1
      omega

theorem c3_amended_single_outstanding_witness :
    SyncReach taTick1 ∧ taTick1.inflight ≤ 1 := by
  have hsync : SyncReach taTick1 :=
    SyncReach.step (SyncReach.step SyncReach.init
      (Step.activate (by decide) (by decide)) (by decide))
      (Step.tick (by decide)) (by decide)
  exact ⟨hsync, c3_amended_single_outstanding taTick1 hsync⟩

/-- C4, counterexample.  The claim asserts that a transport failure on a
poll tick is swallowed and retried on the next tick for both the single-job
tracker and the batch coordinator.  The batch coordinator's `catch` branch
clears the interval on any request failure: in the concrete execution
tick → deliver(error), the interval is gone and the next tick can no longer
fire — the job is abandoned, not retried. -/
theorem c4_counterexample :
    BatchReach bErr ∧ bErr.intervalActive = false
    ∧ ¬ BatchStep bErr .tick { bErr with inflight := bErr.inflight + 1 } := by
  refine ⟨?_, by decide, ?_⟩
  · exact BatchReach.step (BatchReach.step BatchReach.init (BatchStep.tick (by decide)))
      (BatchStep.deliverErr (by decide))
  · intro h
    cases h with
    | tick htick => exact absurd htick (by decide)

/-- C4, amended.  For the single-job tracker the claim holds: a poll
response failure whose error text does not indicate a missing job only
records the error message and leaves the status and the polling interval
untouched (so polling resumes on the next tick), while an error text
containing `任务不存在` is terminal — the interval is cleared and the status
becomes `error`.  The batch coordinator, however, stops its interval on any
poll failure. -/
theorem c4_amended_error_handling :
    (∀ (s s' : TrackerState) (err : List Char),
        Step s (.deliver (.fail err)) s' → strIncludes err notFoundText = false →
        s'.intervalActive = s.intervalActive ∧ s'.status = s.status
        ∧ s'.errorMsg = some (jsOrStr err "获取任务状态失败".data))
    ∧ (∀ (s s' : TrackerState) (err : List Char),
        Step s (.deliver (.fail err)) s' → strIncludes err notFoundText = true →
        s'.intervalActive = false ∧ s'.status = .errored)
    ∧ (∀ (b b' : BatchState), BatchStep b .deliverErr b' → b'.intervalActive = false) := by
  refine ⟨?_, ?_, ?_⟩
  · intro s s' err hstep hnf
    cases hstep with
    | deliverFail hin => simp [checkTaskStatus, hnf]
  · intro s s' err hstep hnf
    cases hstep with
    | deliverFail hin => simp [checkTaskStatus, hnf]
  · intro b b' hstep
    cases hstep with
    | deliverErr hin => rfl

theorem c4_amended_error_handling_witness :
    (Step taTick1 (.deliver (.fail transportErrText)) taFailSwallow
      ∧ strIncludes transportErrText notFoundText = false
      ∧ taFailSwallow.intervalActive = taTick1.intervalActive
      ∧ taFailSwallow.status = taTick1.status
      ∧ taFailSwallow.errorMsg = some (jsOrStr transportErrText "获取任务状态失败".data))
    ∧ (Step taTick1 (.deliver (.fail notFoundText)) taFailNotFound
      ∧ strIncludes notFoundText notFoundText = true
      ∧ taFailNotFound.intervalActive = false ∧ taFailNotFound.status = .errored)
    ∧ (BatchStep bTicked .deliverErr bErr ∧ bErr.intervalActive = false) := by
  have hs1 : Step taTick1 (.deliver (.fail transportErrText)) taFailSwallow :=
    Step.deliverFail (by decide)
  have hs2 : Step taTick1 (.deliver (.fail notFoundText)) taFailNotFound :=
    Step.deliverFail (by decide)
  have hs3 : BatchStep bTicked .deliverErr bErr := BatchStep.deliverErr (by decide)
  have hm1 := c4_amended_error_handling.1 taTick1 taFailSwallow transportErrText hs1 (by decide)
  have hm2 := c4_amended_error_handling.2.1 taTick1 taFailNotFound notFoundText hs2 (by decide)
  have hm3 := c4_amended_error_handling.2.2 bTicked bErr hs3
  exact ⟨⟨hs1, by decide, hm1.1, hm1.2.1, hm1.2.2⟩,
         ⟨hs2, by decide, hm2.1, hm2.2⟩, ⟨hs3, hm3⟩⟩

theorem c7_transport_error_witness :
    respOk c7resp = false
    ∧ errDetail c7resp = "boom".data
    ∧ (chatWithAgentStream c7resp
        = [mkErrorEvent (streamErrPrefix
            ++ httpErrMsg c7resp.status c7resp.statusText (errDetail c7resp))]
       ∧ (errDetail c7resp ≠ [] →
          List.IsSuffix (errDetail c7resp)
            (streamErrPrefix
              ++ httpErrMsg c7resp.status c7resp.statusText (errDetail c7resp)))) :=
  ⟨by decide, by rfl, c7_transport_error c7resp (by decide)⟩

/-! ## Cache and chat-reducer claims -/

theorem dbGet_dbDelete {α : Type} (db : Store α) (k : String) :
    dbGet (dbDelete db k) k = none := by
  induction db with
  | nil => rfl
  | cons p ps ih =>
    by_cases hp : p.1 = k
    · simp only [dbDelete] at ih ⊢
      rw [List.filter_cons, if_neg (by simp [hp])]
      exact ih
    · simp only [dbDelete] at ih ⊢
      rw [List.filter_cons, if_pos (by simp [hp])]
      simpa [dbGet, List.find?, hp] using ih

theorem dbDelete_length_lt {α : Type} {db : Store α} {k : String} {it : CacheItem α}
    (h : dbGet db k = some it) : (dbDelete db k).length < db.length := by
  induction db with
  | nil => simp [dbGet] at h
  | cons p ps ih =>
    by_cases hp : p.1 = k
    · have hdel : dbDelete (p :: ps) k = dbDelete ps k := by
        simp [dbDelete, List.filter_cons, hp]
      rw [hdel]
      calc (dbDelete ps k).length ≤ ps.length := List.length_filter_le _ _
        _ < (p :: ps).length := by simp
    · have h' : dbGet ps k = some it := by
        simpa [dbGet, List.find?, hp] using h
      have hdel : dbDelete (p :: ps) k = p :: dbDelete ps k := by
        simp [dbDelete, List.filter_cons, hp]
      rw [hdel, List.length_cons, List.length_cons]
      exact Nat.succ_lt_succ (ih h')

theorem not_mem_keys_dbDelete {α : Type} (db : Store α) (k : String) :
    k ∉ (dbDelete db k).map (fun p => p.1) := by
  intro hmem
  rcases List.mem_map.mp hmem with ⟨p, hp, hk⟩
  rcases List.mem_filter.mp hp with ⟨_, hpred⟩
  exact (of_decide_eq_true hpred) hk

/-- C8.  `get(key)` returns absent both when the key was never set and when
the current time exceeds the entry's `expireTime` (strictly); in the expired
case the read deletes the entry, so afterwards the key cannot be read back
and a subsequent `stats()` — at any time — no longer lists the key and
counts strictly fewer total items (hence the entry is counted neither among
total nor among active items). -/
theorem c8_cache_get_expiry {α : Type} :
    (∀ (db : Store α) (now : Nat) (k : String),
        dbGet db k = none →
        (cacheGet db now k).1 = none ∧ (cacheGet db now k).2 = db)
    ∧ (∀ (db : Store α) (now : Nat) (k : String) (it : CacheItem α),
        dbGet db k = some it → it.expireTime < now →
        (cacheGet db now k).1 = none
        ∧ dbGet (cacheGet db now k).2 k = none
        ∧ ∀ m : Nat,
            (getStats (cacheGet db now k).2 m).totalItems < (getStats db m).totalItems
            ∧ k ∉ (getStats (cacheGet db now k).2 m).cacheKeys) := by
  constructor
  · intro db now k h
    simp [cacheGet, h]
  · intro db now k it hit hexp
    have hc : cacheGet db now k = (none, dbDelete db k) := by
      simp [cacheGet, hit, hexp]
    refine ⟨by rw [hc], by rw [hc]; exact dbGet_dbDelete db k, fun m => ⟨?_, ?_⟩⟩
    · rw [hc]
      exact dbDelete_length_lt hit
    · rw [hc]
      exact not_mem_keys_dbDelete db k

theorem c8_cache_get_expiry_witness :
    (dbGet ([] : Store Nat) "k" = none
      ∧ (cacheGet ([] : Store Nat) 0 "k").1 = none
      ∧ (cacheGet ([] : Store Nat) 0 "k").2 = [])
    ∧ (dbGet c8db "k" = some c8item ∧ c8item.expireTime < 6
      ∧ (cacheGet c8db 6 "k").1 = none
      ∧ dbGet (cacheGet c8db 6 "k").2 "k" = none
      ∧ (getStats (cacheGet c8db 6 "k").2 7).totalItems < (getStats c8db 7).totalItems
      ∧ "k" ∉ (getStats (cacheGet c8db 6 "k").2 7).cacheKeys) := by
  have h1 := (c8_cache_get_expiry (α := Nat)).1 [] 0 "k" (by rfl)
  have h2 := (c8_cache_get_expiry (α := Nat)).2 c8db 6 "k" c8item (by rfl) (by decide)
  exact ⟨⟨by rfl, h1.1, h1.2⟩,
         ⟨by rfl, by decide, h2.1, h2.2.1, (h2.2.2 7).1, (h2.2.2 7).2⟩⟩

/-- C9.  On the scenario frame sequence
`start, thinking, tool_calls, tool_start(search), tool_result(search),
content("hi there"), end` — the `tool_result` carrying a nonempty formatted
result `r` — the reducer reconstructs one assistant message whose content is
exactly `hi there` and whose attached tool-output list is exactly `[r]`
(one recorded tool output). -/
theorem c9_stream_scenario (sid thought r : List Char) (hr : r ≠ []) :
    (runChat (scenarioFrames sid thought r)).messageContent = "hi there".data
    ∧ (runChat (scenarioFrames sid thought r)).attachedToolOutputs = some [r] := by
  simp [runChat, scenarioFrames, handleFrame, initChatView, hr]

theorem c9_stream_scenario_witness :
    ("res".data ≠ ([] : List Char))
    ∧ (runChat (scenarioFrames "s1".data "thinking...".data "res".data)).messageContent
        = "hi there".data
    ∧ (runChat (scenarioFrames "s1".data "thinking...".data "res".data)).attachedToolOutputs
        = some ["res".data] :=
  ⟨by decide, (c9_stream_scenario "s1".data "thinking...".data "res".data (by decide)).1,
   (c9_stream_scenario "s1".data "thinking...".data "res".data (by decide)).2⟩

/-- C10 (implicit).  `set(key, value, 0)` does not create an immediately
expired entry: because `ttl || this._defaultTTL` tests the argument for
falsiness, an explicit TTL of `0` is replaced by the one-hour default —
the write is identical to a write with the TTL omitted, the stored entry
expires at `now + 3600·1000`, and `get` still returns the value at every
time up to that instant. -/
theorem c10_set_zero_ttl {α : Type} (db : Store α) (now : Nat) (k : String) (v : α) :
    cacheSet db now k v (some 0) = cacheSet db now k v none
    ∧ dbGet (cacheSet db now k v (some 0)) k
        = some { value := v, expireTime := now + defaultTTL, lastAccessed := now }
    ∧ ∀ t : Nat, t ≤ now + defaultTTL →
        (cacheGet (cacheSet db now k v (some 0)) t k).1 = some v := by
  refine ⟨rfl, ?_, ?_⟩
  · simp [cacheSet, dbPut, dbGet, List.find?]
  · intro t ht
    have hget : dbGet (cacheSet db now k v (some 0)) k
        = some { value := v, expireTime := now + defaultTTL, lastAccessed := now } := by
      simp [cacheSet, dbPut, dbGet, List.find?]
    simp only [cacheGet, hget]
    rw [if_neg (by simp; omega)]

theorem c10_set_zero_ttl_witness :
    cacheSet ([] : Store Nat) 100 "k" 7 (some 0) = cacheSet ([] : Store Nat) 100 "k" 7 none
    ∧ dbGet (cacheSet ([] : Store Nat) 100 "k" 7 (some 0)) "k"
        = some { value := 7, expireTime := 100 + defaultTTL, lastAccessed := 100 }
    ∧ (100 + defaultTTL ≤ 100 + defaultTTL)
    ∧ (cacheGet (cacheSet ([] : Store Nat) 100 "k" 7 (some 0)) (100 + defaultTTL) "k").1
        = some 7 := by
  have h := c10_set_zero_ttl ([] : Store Nat) 100 "k" 7
  exact ⟨h.1, h.2.1, le_refl _, h.2.2 (100 + defaultTTL) (le_refl _)⟩

end AlphaBot
